import Mathlib

/-!
# OGL `ExecutorHandler`: executor selection, rank-to-device mapping, cache key

A shallow embedding of `src/DevicePersistent/ExecutorHandler/ExecutorHandler.H`.

* `label` values (`gpus_per_rank`, `device_id_`, `verbose`) are integers; the
  quotient `/` and the remainder `%` are the truncating C++ operators, and a
  zero right operand is a fault of its own (`Abort.DivideByZero`).  The rank of
  a process and a device count are never negative, so they are naturals; with a
  non-negative dividend no quotient or remainder leaves the range of its
  operands, so no wrap-around arithmetic is involved.
* `FatalErrorInFunction << ... << abort(FatalError)` ends the run; it is the
  error `Abort.FatalError` carrying the streamed message.
* A `std::shared_ptr` is an `Option`; the object it points to carries the
  address it was allocated at, and the heap is the next free address.
* Ginkgo and MPI are outside the repository: an executor `create` allocates an
  object of the requested kind, and the runtime facts (`parRun`, the rank, the
  device counts) are fields of `Runtime`.
-/

namespace Foam

/-! ## Faults and C++ integer arithmetic -/

/-- Ways in which a call ends the run instead of returning. -/
inductive Abort where
  /-- The message streamed into `FatalErrorInFunction` before `abort(FatalError)`. -/
  | FatalError (message : String)
  /-- Integer `/` or `%` with a zero right operand. -/
  | DivideByZero
  /-- Member access through a null pointer. -/
  | NullDereference
  deriving DecidableEq

/-- C++ `a / b` on signed integers: truncation toward zero, undefined for `b = 0`. -/
def cxx_div (a b : Int) : Except Abort Int :=
  if b = 0 then .error .DivideByZero else .ok (Int.tdiv a b)

/-- C++ `a % b` on signed integers: sign of the dividend, undefined for `b = 0`. -/
def cxx_mod (a b : Int) : Except Abort Int :=
  if b = 0 then .error .DivideByZero else .ok (Int.tmod a b)

/-! ## Ginkgo objects -/

namespace gko

/-- One component of `gko::version_info`; only the tag is read. -/
structure version where
  tag : String
  deriving DecidableEq

/-- The module versions of `gko::version_info` that `init()` inspects. -/
structure version_info where
  cuda_version : version
  dpcpp_version : version
  hip_version : version
  omp_version : version
  deriving DecidableEq

/-- A `gko::Executor` object: its concrete class, the address it lives at, and
for the device executors the device index and the master executor. -/
inductive Executor where
  | ReferenceExecutor (addr : Nat)
  | OmpExecutor (addr : Nat)
  | CudaExecutor (addr : Nat) (device_id : Int) (master : Executor)
  | DpcppExecutor (addr : Nat) (device_id : Int) (master : Executor)
  | HipExecutor (addr : Nat) (device_id : Int) (master : Executor)
  deriving DecidableEq

namespace Executor

/-- Address of the executor object itself. -/
def addr : Executor → Nat
  | ReferenceExecutor a => a
  | OmpExecutor a => a
  | CudaExecutor a _ _ => a
  | DpcppExecutor a _ _ => a
  | HipExecutor a _ _ => a

/-- `get_master()`: a host executor is its own master. -/
def get_master : Executor → Executor
  | ReferenceExecutor a => ReferenceExecutor a
  | OmpExecutor a => OmpExecutor a
  | CudaExecutor _ _ m => m
  | DpcppExecutor _ _ m => m
  | HipExecutor _ _ m => m

/-- Device index of a device executor, none for a host executor. -/
def get_device_id : Executor → Option Int
  | ReferenceExecutor _ => none
  | OmpExecutor _ => none
  | CudaExecutor _ d _ => some d
  | DpcppExecutor _ d _ => some d
  | HipExecutor _ d _ => some d

/-- The backend name under which `init()` selects the class of the executor. -/
def backend : Executor → String
  | ReferenceExecutor _ => "reference"
  | OmpExecutor _ => "omp"
  | CudaExecutor _ _ _ => "cuda"
  | DpcppExecutor _ _ _ => "dpcpp"
  | HipExecutor _ _ _ => "hip"

/-- Every address reachable from the executor: its own and those of its masters. -/
def addrs : Executor → List Nat
  | ReferenceExecutor a => [a]
  | OmpExecutor a => [a]
  | CudaExecutor a _ m => a :: m.addrs
  | DpcppExecutor a _ m => a :: m.addrs
  | HipExecutor a _ m => a :: m.addrs

end Executor

/-- `gko::ReferenceExecutor::create()`. -/
def ReferenceExecutor.create (heap : Nat) : Executor × Nat :=
  (Executor.ReferenceExecutor heap, heap + 1)

/-- `gko::OmpExecutor::create()`. -/
def OmpExecutor.create (heap : Nat) : Executor × Nat :=
  (Executor.OmpExecutor heap, heap + 1)

/-- `gko::CudaExecutor::create(device_id, master)`. -/
def CudaExecutor.create (heap : Nat) (device_id : Int) (master : Executor) : Executor × Nat :=
  (Executor.CudaExecutor heap device_id master, heap + 1)

/-- `gko::DpcppExecutor::create(device_id, master)`. -/
def DpcppExecutor.create (heap : Nat) (device_id : Int) (master : Executor) : Executor × Nat :=
  (Executor.DpcppExecutor heap device_id master, heap + 1)

/-- `gko::HipExecutor::create(device_id, master)`. -/
def HipExecutor.create (heap : Nat) (device_id : Int) (master : Executor) : Executor × Nat :=
  (Executor.HipExecutor heap device_id master, heap + 1)

/-- A `gko::experimental::mpi::communicator` over `MPI_COMM_WORLD`. -/
structure communicator where
  addr : Nat
  rank : Nat
  force_host_buffer : Bool
  deriving DecidableEq

end gko

/-! ## Runtime facts supplied by OpenFOAM, MPI and Ginkgo -/

/-- What the surrounding run reports to the code under study. -/
structure Runtime where
  /-- `Pstream::parRun()`. -/
  parRun : Bool
  /-- Rank of this process in `MPI_COMM_WORLD`. -/
  rank : Nat
  /-- `gko::version_info::get()`. -/
  version : gko.version_info
  /-- `gko::CudaExecutor::get_num_devices()`. -/
  cuda_num_devices : Nat
  /-- `gko::DpcppExecutor::get_num_devices("gpu")`. -/
  dpcpp_num_devices : Nat
  /-- `gko::HipExecutor::get_num_devices()`. -/
  hip_num_devices : Nat
  deriving DecidableEq

/-- `std::make_shared<communicator>(MPI_COMM_WORLD, force_host_buffer)`. -/
def make_shared_communicator (rt : Runtime) (heap : Nat) (force_host_buffer : Bool) :
    Option gko.communicator × Nat :=
  (some ⟨heap, rt.rank, force_host_buffer⟩, heap + 1)

/-- The initialiser shared by `comm_` and `device_comm_`:
`parRun() ? make_shared<communicator>(MPI_COMM_WORLD, flag) : NULL`. -/
def init_comm (rt : Runtime) (heap : Nat) (force_host_buffer : Bool) :
    Option gko.communicator × Nat :=
  if rt.parRun then make_shared_communicator rt heap force_host_buffer else (none, heap)

/-! ## `ExecutorInitFunctor` -/

/-- Data members of `ExecutorInitFunctor`. -/
structure ExecutorInitFunctor where
  comm_ : Option gko.communicator
  device_id_ : Int
  executor_name_ : String
  field_name_ : String
  verbose_ : Int
  version : gko.version_info
  deriving DecidableEq

namespace ExecutorInitFunctor

/-- The member `not_compiled_tag`. -/
def not_compiled_tag : String := "not compiled"

/-- The initialiser of `device_id_`:
`parRun() ? comm_->rank() / gpus_per_rank : 0`. -/
def init_device_id (rt : Runtime) (comm_ : Option gko.communicator) (gpus_per_rank : Int) :
    Except Abort Int :=
  if rt.parRun then
    match comm_ with
    | some c => cxx_div (c.rank : Int) gpus_per_rank
    | none => .error .NullDereference
  else .ok 0

/-- The constructor; `force_host_buffer` is `false` when the caller omits it. -/
def construct (rt : Runtime) (heap : Nat) (executor_name field_name : String)
    (verbose gpus_per_rank : Int) (force_host_buffer : Bool) :
    Except Abort (ExecutorInitFunctor × Nat) :=
  match init_comm rt heap force_host_buffer with
  | (comm_, heap1) =>
    match init_device_id rt comm_ gpus_per_rank with
    | .error e => .error e
    | .ok device_id_ =>
      .ok (⟨comm_, device_id_, executor_name, field_name, verbose, rt.version⟩, heap1)

/-- `update(std::shared_ptr<gko::Executor>)`: does nothing. -/
def update (_f : ExecutorInitFunctor) (_p : Option gko.Executor) : Unit := ()

/-- Message streamed into the fatal error at the end of `init()`. -/
def unsupported_message (executor_name : String) : String :=
  "OGL does not support the executor: " ++ executor_name ++
    "\nValid choices are: cuda, hip, dpcpp, omp, or reference"

/-- `init()`: the host reference executor first, then the dispatch on
`executor_name_`. -/
def init (f : ExecutorInitFunctor) (rt : Runtime) (heap : Nat) :
    Except Abort (Option gko.Executor × Nat) :=
  match gko.ReferenceExecutor.create heap with
  | (host_exec, heap1) =>
    if f.executor_name_ = "cuda" then
      if f.version.cuda_version.tag = not_compiled_tag then
        .error (.FatalError
          "CUDA Backend was not compiled. Recompile OGL/Ginkgo with CUDA backend enabled.")
      else
        match cxx_mod f.device_id_ (rt.cuda_num_devices : Int) with
        | .error e => .error e
        | .ok d =>
          match gko.CudaExecutor.create heap1 d host_exec with
          | (e, heap2) => .ok (some e, heap2)
    else if f.executor_name_ = "dpcpp" then
      if f.version.dpcpp_version.tag = not_compiled_tag then
        .error (.FatalError
          "SYCL Backend was not compiled. Recompile OGL/Ginkgo with SYCL backend enabled.")
      else
        match cxx_mod f.device_id_ (rt.dpcpp_num_devices : Int) with
        | .error e => .error e
        | .ok d =>
          match gko.DpcppExecutor.create heap1 d host_exec with
          | (e, heap2) => .ok (some e, heap2)
    else if f.executor_name_ = "hip" then
      if f.version.hip_version.tag = not_compiled_tag then
        .error (.FatalError
          "HIP Backend was not compiled. Recompile OGL/Ginkgo with HIP backend enabled.")
      else
        match cxx_mod f.device_id_ (rt.hip_num_devices : Int) with
        | .error e => .error e
        | .ok d =>
          match gko.HipExecutor.create heap1 d host_exec with
          | (ret, heap2) => .ok (some ret, heap2)
    else if f.executor_name_ = "omp" then
      if f.version.omp_version.tag = not_compiled_tag then
        .error (.FatalError
          "OMP Backend was not compiled. Recompile OGL/Ginkgo with OMP backend enabled.")
      else
        match gko.OmpExecutor.create heap1 with
        | (e, heap2) => .ok (some e, heap2)
    else if f.executor_name_ = "reference" then
      .ok (some host_exec, heap1)
    else
      .error (.FatalError (unsupported_message f.executor_name_))

end ExecutorInitFunctor

/-! ## The solver dictionary, the object registry and the persistent store -/

/-- The entries of `solverControls` that the handler reads; an absent key is
`none`. -/
structure dictionary where
  executor : Option String
  verbose : Option Int
  ranksPerGPU : Option Int
  forceHostBuffer : Option Bool
  deriving DecidableEq

/-- `dictionary::lookupOrDefault(key, deflt)` on the entry stored under `key`. -/
def dictionary.lookupOrDefault {α : Type} (entry : Option α) (deflt : α) : α :=
  match entry with
  | some v => v
  | none => deflt

/-- Modelled from the spec: the object registry behind the persistent store,
which is not among the sources.  It maps a key to the executor handle stored
under it; `init_calls` records, newest first, the keys for which the factory
was run. -/
structure objectRegistry where
  objects : List (String × Option gko.Executor)
  init_calls : List String
  deriving DecidableEq

/-- The mutable state a constructor works on: next free address and registry. -/
structure State where
  heap : Nat
  db : objectRegistry
  deriving DecidableEq

/-- Modelled from the spec: the data members of `PersistentBase`
(`DevicePersistent/Base/Base.H`, not among the sources): the key and the
shared handle obtained from the store. -/
structure PersistentBase where
  name_ : String
  persistent_object_ : Option gko.Executor
  deriving DecidableEq

/-- Modelled from the spec: the constructor of `PersistentBase`
(`DevicePersistent/Base/Base.H`, not among the sources), the keyed store
`get_or_create(key, factory)`.  A key already in the registry yields the stored
handle and the factory only sees the no-op `update`; a new key runs the factory
`init()` once and stores what it returned. -/
def PersistentBase.construct (name : String) (st : State) (f : ExecutorInitFunctor)
    (rt : Runtime) : Except Abort (PersistentBase × State) :=
  match st.db.objects.lookup name with
  | some p =>
    match f.update p with
    | () => .ok (⟨name, p⟩, st)
  | none =>
    match f.init rt st.heap with
    | .error e => .error e
    | .ok (p, heap1) =>
      .ok (⟨name, p⟩, ⟨heap1, ⟨(name, p) :: st.db.objects, name :: st.db.init_calls⟩⟩)

/-- Modelled from the spec: `get_persistent_object()` of `PersistentBase`
(`DevicePersistent/Base/Base.H`, not among the sources) returns the handle
obtained at construction. -/
def PersistentBase.get_persistent_object (b : PersistentBase) : Option gko.Executor :=
  b.persistent_object_

/-! ## `ExecutorHandler` -/

/-- Data members of `ExecutorHandler` with its `PersistentBase` part. -/
structure ExecutorHandler extends PersistentBase where
  gko_force_host_buffer_ : Bool
  device_comm_ : Option gko.communicator
  device_executor_name_ : String
  deriving DecidableEq

namespace ExecutorHandler

/-- First argument of the base constructor: the key
`lookupOrDefault("executor", word("reference")) + +"_" + field_name`. -/
def cache_key (solverControls : dictionary) (field_name : String) : String :=
  dictionary.lookupOrDefault solverControls.executor "reference" ++ "_" ++ field_name

/-- Third argument of the base constructor: the factory built from the four
settings. -/
def init_functor (rt : Runtime) (heap : Nat) (solverControls : dictionary)
    (field_name : String) : Except Abort (ExecutorInitFunctor × Nat) :=
  ExecutorInitFunctor.construct rt heap
    (dictionary.lookupOrDefault solverControls.executor "reference")
    field_name
    (dictionary.lookupOrDefault solverControls.verbose 0)
    (dictionary.lookupOrDefault solverControls.ranksPerGPU 1)
    (dictionary.lookupOrDefault solverControls.forceHostBuffer false)

/-- The constructor `ExecutorHandler(db, solverControls, field_name)`: the
arguments of the base constructor, the base constructor, then the members in
declaration order. -/
def construct (rt : Runtime) (st : State) (solverControls : dictionary)
    (field_name : String) : Except Abort (ExecutorHandler × State) :=
  match init_functor rt st.heap solverControls field_name with
  | .error e => .error e
  | .ok (f, heap1) =>
    match PersistentBase.construct (cache_key solverControls field_name) ⟨heap1, st.db⟩ f rt with
    | .error e => .error e
    | .ok (base, st2) =>
      match dictionary.lookupOrDefault solverControls.forceHostBuffer false with
      | gko_force_host_buffer_ =>
        match init_comm rt st2.heap gko_force_host_buffer_ with
        | (device_comm_, heap3) =>
          .ok (⟨base, gko_force_host_buffer_, device_comm_,
                dictionary.lookupOrDefault solverControls.executor "reference"⟩,
               ⟨heap3, st2.db⟩)

/-- `get_gko_force_host_buffer()`. -/
def get_gko_force_host_buffer (h : ExecutorHandler) : Bool :=
  h.gko_force_host_buffer_

/-- `get_device_exec()`. -/
def get_device_exec (h : ExecutorHandler) : Option gko.Executor :=
  h.toPersistentBase.get_persistent_object

/-- `get_ref_exec()`: the master of the device executor. -/
def get_ref_exec (h : ExecutorHandler) : Except Abort gko.Executor :=
  match h.get_device_exec with
  | some e => .ok e.get_master
  | none => .error .NullDereference

/-- `get_exec_name()`. -/
def get_exec_name (h : ExecutorHandler) : String :=
  h.device_executor_name_

/-- `get_gko_mpi_host_comm()`: a new communicator on every call. -/
def get_gko_mpi_host_comm (h : ExecutorHandler) (rt : Runtime) (heap : Nat) :
    Option gko.communicator × Nat :=
  make_shared_communicator rt heap h.gko_force_host_buffer_

/-- `get_gko_mpi_device_comm()`. -/
def get_gko_mpi_device_comm (h : ExecutorHandler) : Option gko.communicator :=
  h.device_comm_

end ExecutorHandler

/-! ## Vocabulary of the statements -/

/-- The backend names `init()` dispatches on. -/
def supported_backends : List String := ["cuda", "hip", "dpcpp", "omp", "reference"]

/-- The backend names whose executor is created on a device index. -/
def gpu_backends : List String := ["cuda", "hip", "dpcpp"]

/-- The version tag `init()` compares with `not_compiled_tag` for a backend
name; "reference" and names outside the vocabulary have none. -/
def capability_tag (v : gko.version_info) (name : String) : Option String :=
  if name = "cuda" then some v.cuda_version.tag
  else if name = "dpcpp" then some v.dpcpp_version.tag
  else if name = "hip" then some v.hip_version.tag
  else if name = "omp" then some v.omp_version.tag
  else none

/-- The device count `init()` reduces `device_id_` by for a backend name. -/
def num_devices (rt : Runtime) (name : String) : Option Nat :=
  if name = "cuda" then some rt.cuda_num_devices
  else if name = "dpcpp" then some rt.dpcpp_num_devices
  else if name = "hip" then some rt.hip_num_devices
  else none

/-- A distributed run on rank 7 of a build with CUDA, HIP and OpenMP but without
SYCL, on a node with two CUDA devices and three HIP devices. -/
def sample_parallel_run : Runtime :=
  ⟨true, 7, ⟨⟨"1.7.0"⟩, ⟨"not compiled"⟩, ⟨"1.7.0"⟩, ⟨"1.7.0"⟩⟩, 2, 0, 3⟩

/-- A serial run of a build with every backend compiled in, on a node with one
HIP device and neither a CUDA nor a SYCL device. -/
def sample_serial_run : Runtime :=
  ⟨false, 0, ⟨⟨"1.7.0"⟩, ⟨"1.7.0"⟩, ⟨"1.7.0"⟩, ⟨"1.7.0"⟩⟩, 0, 0, 1⟩

/-- The same run seen from the process of rank `r`. -/
def Runtime.with_rank (rt : Runtime) (r : Nat) : Runtime :=
  ⟨rt.parRun, r, rt.version, rt.cuda_num_devices, rt.dpcpp_num_devices, rt.hip_num_devices⟩

/-- The device index of the executor that the constructor followed by `init()`
creates for the backend `name` with `gpus_per_rank`; none when either step
aborts or the executor has no device index. -/
def assigned_device (rt : Runtime) (name : String) (gpus_per_rank : Int) : Option Int :=
  match ExecutorInitFunctor.construct rt 0 name "" 0 gpus_per_rank false with
  | .error _ => none
  | .ok (f, heap1) =>
    match f.init rt heap1 with
    | .ok (some e, _) => e.get_device_id
    | _ => none

/-- Two executors are independent when no object, the executor or one of its
masters, belongs to both. -/
def gko.Executor.independent (e1 e2 : gko.Executor) : Prop :=
  ∀ a ∈ e1.addrs, a ∉ e2.addrs

/-- Invariant of the state: every stored handle is non-null and lives below
the next free address, and handles stored under different keys are
independent. -/
def State.wf (st : State) : Prop :=
  (∀ kp ∈ st.db.objects, ∃ e, kp.2 = some e ∧ ∀ a ∈ e.addrs, a < st.heap) ∧
  (∀ x ∈ st.db.objects, ∀ y ∈ st.db.objects, x.1 ≠ y.1 →
    ∀ e1 e2, x.2 = some e1 → y.2 = some e2 → e1.independent e2)

/-! ## Theorems -/

namespace ExecutorInitFunctor

theorem construct_parRun (rt : Runtime) (heap : Nat) (executor_name field_name : String)
    (verbose g : Int) (force_host_buffer : Bool) (hpar : rt.parRun = true) (hg : g ≠ 0) :
    construct rt heap executor_name field_name verbose g force_host_buffer
      = .ok (⟨some ⟨heap, rt.rank, force_host_buffer⟩, Int.tdiv (rt.rank : Int) g,
              executor_name, field_name, verbose, rt.version⟩, heap + 1) := by
  simp [construct, init_device_id, init_comm, make_shared_communicator, hpar, cxx_div, hg]

theorem construct_not_parRun (rt : Runtime) (heap : Nat) (executor_name field_name : String)
    (verbose g : Int) (force_host_buffer : Bool) (hpar : rt.parRun = false) :
    construct rt heap executor_name field_name verbose g force_host_buffer
      = .ok (⟨none, 0, executor_name, field_name, verbose, rt.version⟩, heap) := by
  simp [construct, init_device_id, init_comm, hpar]

theorem init_cuda (f : ExecutorInitFunctor) (rt : Runtime) (heap : Nat)
    (hname : f.executor_name_ = "cuda") (hcap : f.version.cuda_version.tag ≠ not_compiled_tag)
    (hn : rt.cuda_num_devices ≠ 0) :
    f.init rt heap = .ok (some (.CudaExecutor (heap + 1)
      (Int.tmod f.device_id_ (rt.cuda_num_devices : Int)) (.ReferenceExecutor heap)), heap + 2) := by
  simp [init, hname, hcap, cxx_mod, hn, gko.ReferenceExecutor.create, gko.CudaExecutor.create]

theorem init_dpcpp (f : ExecutorInitFunctor) (rt : Runtime) (heap : Nat)
    (hname : f.executor_name_ = "dpcpp") (hcap : f.version.dpcpp_version.tag ≠ not_compiled_tag)
    (hn : rt.dpcpp_num_devices ≠ 0) :
    f.init rt heap = .ok (some (.DpcppExecutor (heap + 1)
      (Int.tmod f.device_id_ (rt.dpcpp_num_devices : Int)) (.ReferenceExecutor heap)), heap + 2) := by
  simp [init, hname, hcap, cxx_mod, hn, gko.ReferenceExecutor.create, gko.DpcppExecutor.create]

theorem init_hip (f : ExecutorInitFunctor) (rt : Runtime) (heap : Nat)
    (hname : f.executor_name_ = "hip") (hcap : f.version.hip_version.tag ≠ not_compiled_tag)
    (hn : rt.hip_num_devices ≠ 0) :
    f.init rt heap = .ok (some (.HipExecutor (heap + 1)
      (Int.tmod f.device_id_ (rt.hip_num_devices : Int)) (.ReferenceExecutor heap)), heap + 2) := by
  simp [init, hname, hcap, cxx_mod, hn, gko.ReferenceExecutor.create, gko.HipExecutor.create]

theorem init_omp (f : ExecutorInitFunctor) (rt : Runtime) (heap : Nat)
    (hname : f.executor_name_ = "omp") (hcap : f.version.omp_version.tag ≠ not_compiled_tag) :
    f.init rt heap = .ok (some (.OmpExecutor (heap + 1)), heap + 2) := by
  simp [init, hname, hcap, gko.ReferenceExecutor.create, gko.OmpExecutor.create]

theorem init_reference (f : ExecutorInitFunctor) (rt : Runtime) (heap : Nat)
    (hname : f.executor_name_ = "reference") :
    f.init rt heap = .ok (some (.ReferenceExecutor heap), heap + 1) := by
  simp [init, hname, gko.ReferenceExecutor.create]

end ExecutorInitFunctor

/-- What a successful `PersistentBase` construction did: it kept the key, and
either found the handle under the key and left the state alone, or ran the
factory once and stored the handle under the key. -/
theorem PersistentBase.store_construct_ok (name : String) (st : State) (f : ExecutorInitFunctor)
    (rt : Runtime) (base : PersistentBase) (st2 : State)
    (h : PersistentBase.construct name st f rt = .ok (base, st2)) :
    base.name_ = name ∧
    ((st.db.objects.lookup name = some base.persistent_object_ ∧ st2 = st) ∨
     (st.db.objects.lookup name = none ∧
      f.init rt st.heap = .ok (base.persistent_object_, st2.heap) ∧
      st2.db = ⟨(name, base.persistent_object_) :: st.db.objects, name :: st.db.init_calls⟩)) := by
  unfold PersistentBase.construct at h
  cases hl : st.db.objects.lookup name with
  | some p =>
    rw [hl] at h
    simp only [Except.ok.injEq, Prod.mk.injEq] at h
    obtain ⟨rfl, rfl⟩ := h
    exact ⟨rfl, Or.inl ⟨rfl, rfl⟩⟩
  | none =>
    rw [hl] at h
    cases hi : f.init rt st.heap with
    | error e => rw [hi] at h; cases h
    | ok r =>
      obtain ⟨p, heap1⟩ := r
      rw [hi] at h
      simp only [Except.ok.injEq, Prod.mk.injEq] at h
      obtain ⟨rfl, rfl⟩ := h
      exact ⟨rfl, Or.inr ⟨rfl, rfl, rfl⟩⟩

/-- What a successful `ExecutorHandler` construction did, step by step. -/
theorem ExecutorHandler.construct_ok (rt : Runtime) (st : State) (solverControls : dictionary)
    (field_name : String) (h : ExecutorHandler) (st3 : State)
    (hc : ExecutorHandler.construct rt st solverControls field_name = .ok (h, st3)) :
    ∃ f heap1 base st2,
      ExecutorHandler.init_functor rt st.heap solverControls field_name = .ok (f, heap1) ∧
      PersistentBase.construct (ExecutorHandler.cache_key solverControls field_name)
        ⟨heap1, st.db⟩ f rt = .ok (base, st2) ∧
      h = ⟨base, dictionary.lookupOrDefault solverControls.forceHostBuffer false,
            (init_comm rt st2.heap
              (dictionary.lookupOrDefault solverControls.forceHostBuffer false)).1,
            dictionary.lookupOrDefault solverControls.executor "reference"⟩ ∧
      st3 = ⟨(init_comm rt st2.heap
              (dictionary.lookupOrDefault solverControls.forceHostBuffer false)).2, st2.db⟩ := by
  unfold ExecutorHandler.construct at hc
  cases hf : ExecutorHandler.init_functor rt st.heap solverControls field_name with
  | error e => rw [hf] at hc; cases hc
  | ok r =>
    obtain ⟨f, heap1⟩ := r
    rw [hf] at hc
    simp only at hc
    cases hb : PersistentBase.construct (ExecutorHandler.cache_key solverControls field_name)
        ⟨heap1, st.db⟩ f rt with
    | error e => rw [hb] at hc; cases hc
    | ok r2 =>
      obtain ⟨base, st2⟩ := r2
      rw [hb] at hc
      simp only [Except.ok.injEq, Prod.mk.injEq] at hc
      obtain ⟨rfl, rfl⟩ := hc
      exact ⟨f, heap1, base, st2, rfl, hb, rfl, rfl⟩

/-- The converse of `construct_ok`: the two steps succeeding make the
construction succeed with the handler assembled from them. -/
theorem ExecutorHandler.construct_of_steps (rt : Runtime) (st : State)
    (solverControls : dictionary) (field_name : String) (f : ExecutorInitFunctor) (heap1 : Nat)
    (base : PersistentBase) (st2 : State)
    (hf : ExecutorHandler.init_functor rt st.heap solverControls field_name = .ok (f, heap1))
    (hb : PersistentBase.construct (ExecutorHandler.cache_key solverControls field_name)
        ⟨heap1, st.db⟩ f rt = .ok (base, st2)) :
    ExecutorHandler.construct rt st solverControls field_name
      = .ok (⟨base, dictionary.lookupOrDefault solverControls.forceHostBuffer false,
            (init_comm rt st2.heap
              (dictionary.lookupOrDefault solverControls.forceHostBuffer false)).1,
            dictionary.lookupOrDefault solverControls.executor "reference"⟩,
          ⟨(init_comm rt st2.heap
              (dictionary.lookupOrDefault solverControls.forceHostBuffer false)).2, st2.db⟩) := by
  unfold ExecutorHandler.construct
  rw [hf]
  simp only
  rw [hb]

/-- The key of a constructed handler is the cache key of its arguments. -/
theorem ExecutorHandler.construct_key (rt : Runtime) (st : State) (solverControls : dictionary)
    (field_name : String) (h : ExecutorHandler) (st3 : State)
    (hc : ExecutorHandler.construct rt st solverControls field_name = .ok (h, st3)) :
    h.name_ = ExecutorHandler.cache_key solverControls field_name := by
  obtain ⟨f, heap1, base, st2, -, hb, rfl, -⟩ :=
    ExecutorHandler.construct_ok rt st solverControls field_name h st3 hc
  exact (PersistentBase.store_construct_ok _ _ f rt base st2 hb).1

/-- The members of a functor built by the constructor: the three arguments
stored as given, the version of the run, the communicator of `init_comm` with
the given flag, and the device index of `init_device_id` for the given
`gpus_per_rank`. -/
theorem ExecutorInitFunctor.construct_members (rt : Runtime) (heap : Nat)
    (executor_name field_name : String) (verbose g : Int) (force_host_buffer : Bool)
    (f : ExecutorInitFunctor) (heap1 : Nat)
    (h : ExecutorInitFunctor.construct rt heap executor_name field_name verbose g
      force_host_buffer = .ok (f, heap1)) :
    f.executor_name_ = executor_name ∧ f.field_name_ = field_name ∧ f.verbose_ = verbose ∧
    f.version = rt.version ∧
    f.comm_ = (if rt.parRun then some ⟨heap, rt.rank, force_host_buffer⟩ else none) ∧
    f.device_id_ = (if rt.parRun then Int.tdiv (rt.rank : Int) g else 0) ∧
    (rt.parRun = true → g ≠ 0) := by
  cases hpar : rt.parRun with
  | false =>
    rw [ExecutorInitFunctor.construct_not_parRun rt heap _ _ _ _ _ hpar] at h
    simp only [Except.ok.injEq, Prod.mk.injEq] at h
    obtain ⟨rfl, -⟩ := h
    simp
  | true =>
    by_cases hg : g = 0
    · simp [ExecutorInitFunctor.construct, ExecutorInitFunctor.init_device_id, init_comm,
        make_shared_communicator, hpar, cxx_div, hg] at h
    · rw [ExecutorInitFunctor.construct_parRun rt heap _ _ _ _ _ hpar hg] at h
      simp only [Except.ok.injEq, Prod.mk.injEq] at h
      obtain ⟨rfl, -⟩ := h
      simp [hg]

/-- With `ranksPerGPU = 0` in a distributed run the constructor of the functor
stops at the quotient. -/
theorem ExecutorInitFunctor.construct_parRun_zero (rt : Runtime) (heap : Nat)
    (executor_name field_name : String) (verbose : Int) (force_host_buffer : Bool)
    (hpar : rt.parRun = true) :
    ExecutorInitFunctor.construct rt heap executor_name field_name verbose 0 force_host_buffer
      = .error .DivideByZero := by
  simp [ExecutorInitFunctor.construct, ExecutorInitFunctor.init_device_id, init_comm,
    make_shared_communicator, hpar, cxx_div]

/-- The functor built by the constructor carries the executor name it was given. -/
theorem ExecutorInitFunctor.construct_name (rt : Runtime) (heap : Nat)
    (executor_name field_name : String) (verbose g : Int) (force_host_buffer : Bool)
    (f : ExecutorInitFunctor) (heap1 : Nat)
    (h : ExecutorInitFunctor.construct rt heap executor_name field_name verbose g
      force_host_buffer = .ok (f, heap1)) :
    f.executor_name_ = executor_name := by
  unfold ExecutorInitFunctor.construct at h
  simp only at h
  cases hd : ExecutorInitFunctor.init_device_id rt (init_comm rt heap force_host_buffer).1 g with
  | error e => rw [hd] at h; cases h
  | ok d =>
    rw [hd] at h
    simp only [Except.ok.injEq, Prod.mk.injEq] at h
    obtain ⟨rfl, -⟩ := h
    rfl

/-- With the executor name "reference" the persistent store always yields a
handle under the requested key. -/
theorem PersistentBase.construct_reference (name : String) (st : State)
    (f : ExecutorInitFunctor) (rt : Runtime) (hname : f.executor_name_ = "reference") :
    ∃ base st2, PersistentBase.construct name st f rt = .ok (base, st2) ∧ base.name_ = name := by
  unfold PersistentBase.construct
  cases hl : st.db.objects.lookup name with
  | some p => exact ⟨_, _, rfl, rfl⟩
  | none =>
    simp only [ExecutorInitFunctor.init_reference f rt st.heap hname]
    exact ⟨_, _, rfl, rfl⟩

/-- The address of an executor is among its addresses. -/
theorem gko.Executor.addr_mem_addrs (e : gko.Executor) : e.addr ∈ e.addrs := by
  cases e <;> simp [gko.Executor.addr, gko.Executor.addrs]

/-- Independent executors are different objects. -/
theorem gko.Executor.independent_ne (e1 e2 : gko.Executor) (h : e1.independent e2) :
    e1 ≠ e2 ∧ e1.addr ≠ e2.addr := by
  refine ⟨?_, ?_⟩
  · rintro rfl
    exact h _ e1.addr_mem_addrs e1.addr_mem_addrs
  · intro heq
    have h2 := e2.addr_mem_addrs
    rw [← heq] at h2
    have h1 := h _ e1.addr_mem_addrs
    cases e2 <;> cases e1 <;>
      simp_all [gko.Executor.addr, gko.Executor.addrs]

/-- Whatever `init()` returns is a non-null executor all of whose objects were
allocated by this call. -/
theorem ExecutorInitFunctor.init_ok_fresh (f : ExecutorInitFunctor) (rt : Runtime) (heap : Nat)
    (p : Option gko.Executor) (heap1 : Nat) (h : f.init rt heap = .ok (p, heap1)) :
    heap ≤ heap1 ∧ ∃ e, p = some e ∧ ∀ a ∈ e.addrs, heap ≤ a ∧ a < heap1 := by
  unfold ExecutorInitFunctor.init at h
  simp only [gko.ReferenceExecutor.create, gko.CudaExecutor.create, gko.DpcppExecutor.create,
    gko.HipExecutor.create, gko.OmpExecutor.create, cxx_mod] at h
  split_ifs at h <;> simp only [Except.ok.injEq, Prod.mk.injEq, reduceCtorEq] at h <;>
    obtain ⟨rfl, rfl⟩ := h <;>
    refine ⟨by omega, _, rfl, ?_⟩ <;>
    intro a ha <;>
    simp only [gko.Executor.addrs, List.mem_cons, List.mem_singleton, List.not_mem_nil,
      or_false] at ha <;>
    omega

/-- Building a communicator never lowers the next free address. -/
theorem init_comm_heap_le (rt : Runtime) (heap : Nat) (b : Bool) :
    heap ≤ (init_comm rt heap b).2 := by
  unfold init_comm make_shared_communicator
  split_ifs <;> simp

/-- The constructor of the functor never lowers the next free address. -/
theorem ExecutorInitFunctor.construct_heap_le (rt : Runtime) (heap : Nat)
    (executor_name field_name : String) (verbose g : Int) (force_host_buffer : Bool)
    (f : ExecutorInitFunctor) (heap1 : Nat)
    (h : ExecutorInitFunctor.construct rt heap executor_name field_name verbose g
      force_host_buffer = .ok (f, heap1)) :
    heap ≤ heap1 := by
  unfold ExecutorInitFunctor.construct at h
  simp only at h
  cases hd : ExecutorInitFunctor.init_device_id rt (init_comm rt heap force_host_buffer).1 g with
  | error e => rw [hd] at h; cases h
  | ok d =>
    rw [hd] at h
    simp only [Except.ok.injEq, Prod.mk.injEq] at h
    obtain ⟨-, rfl⟩ := h
    exact init_comm_heap_le rt heap force_host_buffer

/-- Whether the constructor of the functor succeeds does not depend on the
next free address. -/
theorem ExecutorInitFunctor.construct_ok_any_heap (rt : Runtime) (heap heap2 : Nat)
    (executor_name field_name : String) (verbose g : Int) (force_host_buffer : Bool)
    (f : ExecutorInitFunctor) (heap1 : Nat)
    (h : ExecutorInitFunctor.construct rt heap executor_name field_name verbose g
      force_host_buffer = .ok (f, heap1)) :
    ∃ f2 heap3, ExecutorInitFunctor.construct rt heap2 executor_name field_name verbose g
      force_host_buffer = .ok (f2, heap3) := by
  cases hpar : rt.parRun with
  | false => exact ⟨_, _, ExecutorInitFunctor.construct_not_parRun rt heap2 _ _ _ _ _ hpar⟩
  | true =>
    by_cases hg : g = 0
    · simp [ExecutorInitFunctor.construct, ExecutorInitFunctor.init_device_id, init_comm,
        make_shared_communicator, hpar, cxx_div, hg] at h
    · exact ⟨_, _, ExecutorInitFunctor.construct_parRun rt heap2 _ _ _ _ _ hpar hg⟩

/-- A key found by `lookup` is stored with the value found. -/
theorem lookup_some_mem (l : List (String × Option gko.Executor)) (k : String)
    (p : Option gko.Executor) (h : l.lookup k = some p) : (k, p) ∈ l := by
  obtain ⟨l1, l2, rfl, -⟩ := List.lookup_eq_some_iff.mp h
  simp

/-- A key not found by `lookup` is the key of no entry. -/
theorem lookup_none_not_mem (l : List (String × Option gko.Executor)) (k : String)
    (h : l.lookup k = none) : ∀ kp ∈ l, kp.1 ≠ k := by
  intro kp hkp heq
  have := List.lookup_eq_none_iff.mp h kp hkp
  simp [heq] at this

/-- The invariant survives a move of the next free address upward. -/
theorem State.wf_heap_le (st : State) (heap : Nat) (hwf : st.wf) (hle : st.heap ≤ heap) :
    State.wf ⟨heap, st.db⟩ := by
  refine ⟨?_, hwf.2⟩
  intro kp hkp
  obtain ⟨e, he, hlt⟩ := hwf.1 kp hkp
  exact ⟨e, he, fun a ha => lt_of_lt_of_le (hlt a ha) hle⟩

/-- The persistent store keeps the invariant, never lowers the next free
address, files the handle under the key, and keeps every earlier entry. -/
theorem PersistentBase.store_construct_wf (name : String) (st : State) (f : ExecutorInitFunctor)
    (rt : Runtime) (base : PersistentBase) (st2 : State) (hwf : st.wf)
    (h : PersistentBase.construct name st f rt = .ok (base, st2)) :
    st2.wf ∧ st.heap ≤ st2.heap ∧
    st2.db.objects.lookup name = some base.persistent_object_ ∧
    (∀ k p, st.db.objects.lookup k = some p → st2.db.objects.lookup k = some p) := by
  obtain ⟨-, hcase⟩ := PersistentBase.store_construct_ok name st f rt base st2 h
  rcases hcase with ⟨hl, rfl⟩ | ⟨hl, hi, hdb⟩
  · exact ⟨hwf, le_refl _, hl, fun _ _ hk => hk⟩
  · obtain ⟨hle, e, he, hfresh⟩ :=
      ExecutorInitFunctor.init_ok_fresh f rt st.heap _ _ hi
    have hkeys := lookup_none_not_mem _ _ hl
    refine ⟨⟨?_, ?_⟩, hle, ?_, ?_⟩
    · intro kp hkp
      rw [hdb] at hkp
      simp only [List.mem_cons] at hkp
      rcases hkp with rfl | hkp
      · exact ⟨e, he, fun a ha => (hfresh a ha).2⟩
      · obtain ⟨e0, he0, hlt⟩ := hwf.1 kp hkp
        exact ⟨e0, he0, fun a ha => lt_of_lt_of_le (hlt a ha) hle⟩
    · intro x hx y hy hxy e1 e2 h1 h2
      rw [hdb] at hx hy
      simp only [List.mem_cons] at hx hy
      rcases hx with rfl | hx <;> rcases hy with rfl | hy
      · exact absurd rfl hxy
      · obtain ⟨e0, he0, hlt⟩ := hwf.1 y hy
        simp only at h1
        rw [he] at h1
        rw [he0] at h2
        cases h1
        cases h2
        intro a ha ha2
        have := (hfresh a ha).1
        have := hlt a ha2
        omega
      · obtain ⟨e0, he0, hlt⟩ := hwf.1 x hx
        simp only at h2
        rw [he] at h2
        rw [he0] at h1
        cases h1
        cases h2
        intro a ha ha2
        have := (hfresh a ha2).1
        have := hlt a ha
        omega
      · exact hwf.2 x hx y hy hxy e1 e2 h1 h2
    · rw [hdb]
      simp
    · intro k p hk
      rw [hdb]
      have hne : name ≠ k := by
        rintro rfl
        rw [hl] at hk
        cases hk
      simp only [List.lookup_cons]
      have : (k == name) = false := by simpa using (fun h => hne h.symm)
      rw [this]
      exact hk

/-- The construction of a handler keeps the invariant, files the handle under
the cache key, and keeps every earlier entry of the registry. -/
theorem ExecutorHandler.construct_wf (rt : Runtime) (st : State) (solverControls : dictionary)
    (field_name : String) (h : ExecutorHandler) (st3 : State) (hwf : st.wf)
    (hc : ExecutorHandler.construct rt st solverControls field_name = .ok (h, st3)) :
    st3.wf ∧
    h.name_ = ExecutorHandler.cache_key solverControls field_name ∧
    st3.db.objects.lookup (ExecutorHandler.cache_key solverControls field_name)
      = some h.get_device_exec ∧
    (∀ k p, st.db.objects.lookup k = some p → st3.db.objects.lookup k = some p) := by
  obtain ⟨f, heap1, base, st2, hf, hb, rfl, rfl⟩ :=
    ExecutorHandler.construct_ok rt st solverControls field_name h st3 hc
  have hle := ExecutorInitFunctor.construct_heap_le rt st.heap _ _ _ _ _ f heap1 hf
  obtain ⟨hwf2, -, hlook, hkeep⟩ := PersistentBase.store_construct_wf _ _ f rt base st2
    (State.wf_heap_le st heap1 hwf hle) hb
  exact ⟨State.wf_heap_le st2 _ hwf2 (init_comm_heap_le rt st2.heap _),
    (PersistentBase.store_construct_ok _ _ f rt base st2 hb).1, hlook, hkeep⟩

/-- After a successful `PersistentBase` construction the handle is filed
under the key, and the factory was run at most once, for that key. -/
theorem PersistentBase.construct_lookup (name : String) (st : State) (f : ExecutorInitFunctor)
    (rt : Runtime) (base : PersistentBase) (st2 : State)
    (h : PersistentBase.construct name st f rt = .ok (base, st2)) :
    st2.db.objects.lookup name = some base.persistent_object_ ∧
    (st2.db.init_calls = st.db.init_calls ∨ st2.db.init_calls = name :: st.db.init_calls) := by
  obtain ⟨-, hcase⟩ := PersistentBase.store_construct_ok name st f rt base st2 h
  rcases hcase with ⟨hl, rfl⟩ | ⟨-, -, hdb⟩
  · exact ⟨hl, Or.inl rfl⟩
  · rw [hdb]
    exact ⟨by simp, Or.inr rfl⟩

/-- A key already in the registry yields the stored handle; the state is left
alone and the factory is not run. -/
theorem PersistentBase.construct_found (name : String) (st : State) (f : ExecutorInitFunctor)
    (rt : Runtime) (p : Option gko.Executor) (hl : st.db.objects.lookup name = some p) :
    PersistentBase.construct name st f rt = .ok (⟨name, p⟩, st) := by
  unfold PersistentBase.construct
  rw [hl]

/-- Handlers built one after the other under different cache keys hold
non-null, independent executors. -/
theorem ExecutorHandler.independent_of_key_ne (rt : Runtime) (st : State)
    (c1 c2 : dictionary) (f1 f2 : String) (h1 h2 : ExecutorHandler) (st1 st2 : State)
    (hwf : st.wf)
    (hc1 : ExecutorHandler.construct rt st c1 f1 = .ok (h1, st1))
    (hc2 : ExecutorHandler.construct rt st1 c2 f2 = .ok (h2, st2))
    (hne : ExecutorHandler.cache_key c1 f1 ≠ ExecutorHandler.cache_key c2 f2) :
    ∃ e1 e2, h1.get_device_exec = some e1 ∧ h2.get_device_exec = some e2 ∧
      e1.independent e2 := by
  obtain ⟨hwf1, -, hl1, -⟩ := ExecutorHandler.construct_wf rt st c1 f1 h1 st1 hwf hc1
  obtain ⟨hwf2, -, hl2, hkeep⟩ := ExecutorHandler.construct_wf rt st1 c2 f2 h2 st2 hwf1 hc2
  have hm1 := lookup_some_mem _ _ _ (hkeep _ _ hl1)
  have hm2 := lookup_some_mem _ _ _ hl2
  obtain ⟨e1, he1, -⟩ := hwf2.1 _ hm1
  obtain ⟨e2, he2, -⟩ := hwf2.1 _ hm2
  exact ⟨e1, e2, he1, he2, hwf2.2 _ hm1 _ hm2 hne e1 e2 he1 he2⟩

/-- The registry with no entry satisfies the invariant. -/
theorem State.wf_empty (heap : Nat) : State.wf ⟨heap, ⟨[], []⟩⟩ := by
  constructor <;> simp

/-- No "not compiled" message is an unsupported-executor message: they differ
within their first two characters. -/
theorem not_compiled_ne_unsupported (s : String) :
    "CUDA Backend was not compiled. Recompile OGL/Ginkgo with CUDA backend enabled."
        ≠ ExecutorInitFunctor.unsupported_message s ∧
    "SYCL Backend was not compiled. Recompile OGL/Ginkgo with SYCL backend enabled."
        ≠ ExecutorInitFunctor.unsupported_message s ∧
    "HIP Backend was not compiled. Recompile OGL/Ginkgo with HIP backend enabled."
        ≠ ExecutorInitFunctor.unsupported_message s ∧
    "OMP Backend was not compiled. Recompile OGL/Ginkgo with OMP backend enabled."
        ≠ ExecutorInitFunctor.unsupported_message s := by
  refine ⟨?_, ?_, ?_, ?_⟩ <;>
  · intro h
    have hd := congrArg String.data h
    simp [ExecutorInitFunctor.unsupported_message] at hd

/-- For a non-negative rank, a positive divisor and a positive device count the
truncating C++ operators agree with the mathematical quotient and remainder. -/
theorem tmod_tdiv_rank (r : Nat) (g : Int) (n : Nat) (hg : 0 < g) :
    Int.tmod (Int.tdiv (r : Int) g) (n : Int) = (r : Int) / g % (n : Int) := by
  have hdiv : Int.tdiv (r : Int) g = (r : Int) / g :=
    Int.tdiv_eq_ediv (Int.ofNat_nonneg _) hg.le
  have hq : 0 ≤ (r : Int) / g := Int.ediv_nonneg (Int.ofNat_nonneg _) hg.le
  rw [hdiv, Int.tmod_eq_emod hq (Int.ofNat_nonneg _)]

/-- In a distributed run the device assigned for a compiled-in GPU backend is
the rank divided by `gpus_per_rank`, reduced by the device count. -/
theorem assigned_device_eq (rt : Runtime) (name : String) (g n : Nat)
    (hpar : rt.parRun = true) (hg : 0 < g) (hname : name ∈ gpu_backends)
    (hcap : capability_tag rt.version name ≠ some ExecutorInitFunctor.not_compiled_tag)
    (hn : num_devices rt name = some n) (hpos : 0 < n) :
    assigned_device rt name (g : Int) = some ((rt.rank / g % n : Nat) : Int) := by
  have hg0 : (g : Int) ≠ 0 := by exact_mod_cast (Nat.pos_iff_ne_zero.mp hg)
  have hn0 : n ≠ 0 := Nat.pos_iff_ne_zero.mp hpos
  have hc := ExecutorInitFunctor.construct_parRun rt 0 name "" 0 (g : Int) false hpar hg0
  have hval : Int.tmod (Int.tdiv (rt.rank : Int) (g : Int)) (n : Int)
      = ((rt.rank / g % n : Nat) : Int) := by
    rw [tmod_tdiv_rank rt.rank (g : Int) n (by exact_mod_cast hg)]
    norm_cast
  unfold assigned_device
  rw [hc]
  simp only [gpu_backends, List.mem_cons, List.mem_singleton, List.not_mem_nil, or_false] at hname
  rcases hname with rfl | rfl | rfl
  · simp [capability_tag, num_devices] at hcap hn
    subst hn
    have hi := ExecutorInitFunctor.init_cuda
      ⟨some ⟨0, rt.rank, false⟩, Int.tdiv (rt.rank : Int) (g : Int), "cuda", "", 0, rt.version⟩
      rt (0 + 1) rfl hcap hn0
    simp only [hi, gko.Executor.get_device_id, hval]
  · simp [capability_tag, num_devices] at hcap hn
    subst hn
    have hi := ExecutorInitFunctor.init_hip
      ⟨some ⟨0, rt.rank, false⟩, Int.tdiv (rt.rank : Int) (g : Int), "hip", "", 0, rt.version⟩
      rt (0 + 1) rfl hcap hn0
    simp only [hi, gko.Executor.get_device_id, hval]
  · simp [capability_tag, num_devices] at hcap hn
    subst hn
    have hi := ExecutorInitFunctor.init_dpcpp
      ⟨some ⟨0, rt.rank, false⟩, Int.tdiv (rt.rank : Int) (g : Int), "dpcpp", "", 0, rt.version⟩
      rt (0 + 1) rfl hcap hn0
    simp only [hi, gko.Executor.get_device_id, hval]

/-- C1: in a distributed run with rank r, ranksPerGPU g > 0 and n > 0 devices, constructing the
functor and calling init() for a compiled-in GPU backend creates the executor of that backend on
device index (r / g) mod n, and that index lies in [0, n). -/
theorem C1_device_index_wraps (rt : Runtime) (heap : Nat) (name field_name : String)
    (verbose g : Int) (force_host_buffer : Bool) (n : Nat)
    (hpar : rt.parRun = true) (hg : 0 < g) (hname : name ∈ gpu_backends)
    (hcap : capability_tag rt.version name ≠ some ExecutorInitFunctor.not_compiled_tag)
    (hn : num_devices rt name = some n) (hpos : 0 < n) :
    ∃ f heap1 e heap2,
      ExecutorInitFunctor.construct rt heap name field_name verbose g force_host_buffer
        = .ok (f, heap1) ∧
      f.init rt heap1 = .ok (some e, heap2) ∧
      e.backend = name ∧
      e.get_device_id = some ((rt.rank : Int) / g % (n : Int)) ∧
      0 ≤ (rt.rank : Int) / g % (n : Int) ∧ (rt.rank : Int) / g % (n : Int) < (n : Int) := by
  have hg0 : g ≠ 0 := ne_of_gt hg
  have hn0 : n ≠ 0 := Nat.pos_iff_ne_zero.mp hpos
  have hn0i : (n : Int) ≠ 0 := by exact_mod_cast hn0
  have hlo : 0 ≤ (rt.rank : Int) / g % (n : Int) := Int.emod_nonneg _ hn0i
  have hhi : (rt.rank : Int) / g % (n : Int) < (n : Int) :=
    Int.emod_lt_of_pos _ (by exact_mod_cast hpos)
  have hc := ExecutorInitFunctor.construct_parRun rt heap name field_name verbose g
    force_host_buffer hpar hg0
  simp only [gpu_backends, List.mem_cons, List.mem_singleton, List.not_mem_nil, or_false] at hname
  rcases hname with rfl | rfl | rfl
  · simp [capability_tag, num_devices] at hcap hn
    subst hn
    refine ⟨_, _, _, _, hc, ExecutorInitFunctor.init_cuda _ rt _ rfl hcap hn0, rfl, ?_, hlo, hhi⟩
    simp [gko.Executor.get_device_id, tmod_tdiv_rank _ _ _ hg]
  · simp [capability_tag, num_devices] at hcap hn
    subst hn
    refine ⟨_, _, _, _, hc, ExecutorInitFunctor.init_hip _ rt _ rfl hcap hn0, rfl, ?_, hlo, hhi⟩
    simp [gko.Executor.get_device_id, tmod_tdiv_rank _ _ _ hg]
  · simp [capability_tag, num_devices] at hcap hn
    subst hn
    refine ⟨_, _, _, _, hc, ExecutorInitFunctor.init_dpcpp _ rt _ rfl hcap hn0, rfl, ?_, hlo, hhi⟩
    simp [gko.Executor.get_device_id, tmod_tdiv_rank _ _ _ hg]

/-- C1 at rank 7 with ranksPerGPU 2 on two CUDA devices: 7 / 2 = 3 wraps to device 1. -/
theorem C1_device_index_wraps_witness :
    ∃ f heap1 e heap2,
      ExecutorInitFunctor.construct sample_parallel_run 0 "cuda" "p" 0 2 false = .ok (f, heap1) ∧
      f.init sample_parallel_run heap1 = .ok (some e, heap2) ∧
      e.backend = "cuda" ∧
      e.get_device_id = some ((7 : Int) / 2 % (2 : Nat)) ∧
      0 ≤ (7 : Int) / 2 % (2 : Nat) ∧ (7 : Int) / 2 % (2 : Nat) < (2 : Nat) :=
  C1_device_index_wraps sample_parallel_run 0 "cuda" "p" 0 2 false 2 rfl (by decide) (by decide)
    (by decide) rfl (by decide)

/-- C2: for an executor name outside the five supported names init() ends in the fatal error
whose message names the offending string and the valid choices, and returns no executor,
whatever the capabilities, the device index and the device counts are. -/
theorem C2_unsupported_backend_aborts (f : ExecutorInitFunctor) (rt : Runtime) (heap : Nat)
    (hname : f.executor_name_ ∉ supported_backends) :
    f.init rt heap = .error (.FatalError
      ("OGL does not support the executor: " ++ f.executor_name_ ++
        "\nValid choices are: cuda, hip, dpcpp, omp, or reference")) ∧
    ∀ p, f.init rt heap ≠ .ok p := by
  simp only [supported_backends, List.mem_cons, List.mem_singleton, List.not_mem_nil, or_false,
    not_or] at hname
  obtain ⟨h1, h2, h3, h4, h5⟩ := hname
  have h : f.init rt heap = .error (.FatalError
      ("OGL does not support the executor: " ++ f.executor_name_ ++
        "\nValid choices are: cuda, hip, dpcpp, omp, or reference")) := by
    simp [ExecutorInitFunctor.init, ExecutorInitFunctor.unsupported_message, h1, h2, h3, h4, h5]
  refine ⟨h, ?_⟩
  intro p hp
  rw [h] at hp
  cases hp

/-- C2 at the names "CUDA" (the match is case-sensitive) and "" on a build with CUDA. -/
theorem C2_unsupported_backend_aborts_witness :
    (ExecutorInitFunctor.init ⟨none, 0, "CUDA", "p", 0, sample_serial_run.version⟩
        sample_serial_run 0
      = .error (.FatalError
          "OGL does not support the executor: CUDA\nValid choices are: cuda, hip, dpcpp, omp, or reference")) ∧
    (ExecutorInitFunctor.init ⟨none, 0, "", "p", 0, sample_serial_run.version⟩
        sample_serial_run 0
      = .error (.FatalError
          "OGL does not support the executor: \nValid choices are: cuda, hip, dpcpp, omp, or reference")) :=
  ⟨(C2_unsupported_backend_aborts ⟨none, 0, "CUDA", "p", 0, sample_serial_run.version⟩
      sample_serial_run 0 (by decide)).1,
   (C2_unsupported_backend_aborts ⟨none, 0, "", "p", 0, sample_serial_run.version⟩
      sample_serial_run 0 (by decide)).1⟩

/-- C3: for "cuda", "hip", "dpcpp" and "omp" with the capability tag "not compiled", init() ends
in the fatal error telling that this backend was not compiled; it is never the
unsupported-executor error and never an executor, whatever the other tags, the device index and
the device counts are. -/
theorem C3_not_compiled_backend_aborts (f : ExecutorInitFunctor) (rt : Runtime) (heap : Nat)
    (hname : f.executor_name_ ∈ ["cuda", "hip", "dpcpp", "omp"])
    (hcap : capability_tag f.version f.executor_name_
      = some ExecutorInitFunctor.not_compiled_tag) :
    (∃ label, (f.executor_name_, label)
        ∈ [("cuda", "CUDA"), ("hip", "HIP"), ("dpcpp", "SYCL"), ("omp", "OMP")] ∧
      f.init rt heap = .error (.FatalError
        (label ++ " Backend was not compiled. Recompile OGL/Ginkgo with " ++ label ++
          " backend enabled."))) ∧
    (∀ s, f.init rt heap ≠ .error (.FatalError (ExecutorInitFunctor.unsupported_message s))) ∧
    ∀ p, f.init rt heap ≠ .ok p := by
  obtain ⟨hc, hs, hh, ho⟩ : (∀ s, _) ∧ (∀ s, _) ∧ (∀ s, _) ∧ (∀ s, _) :=
    ⟨fun s => (not_compiled_ne_unsupported s).1, fun s => (not_compiled_ne_unsupported s).2.1,
     fun s => (not_compiled_ne_unsupported s).2.2.1, fun s => (not_compiled_ne_unsupported s).2.2.2⟩
  simp only [List.mem_cons, List.mem_singleton, List.not_mem_nil, or_false] at hname
  rcases hname with h | h | h | h
  · have hi : f.init rt heap = .error (.FatalError
        "CUDA Backend was not compiled. Recompile OGL/Ginkgo with CUDA backend enabled.") := by
      simp [capability_tag, h] at hcap
      simp [ExecutorInitFunctor.init, h, hcap]
    refine ⟨⟨"CUDA", by simp [h], by rw [hi]; rfl⟩, ?_, ?_⟩
    · intro s hs'
      rw [hi] at hs'
      exact hc s (by injection hs' with h1; injection h1)
    · intro p hp
      rw [hi] at hp
      cases hp
  · have hi : f.init rt heap = .error (.FatalError
        "HIP Backend was not compiled. Recompile OGL/Ginkgo with HIP backend enabled.") := by
      simp [capability_tag, h] at hcap
      simp [ExecutorInitFunctor.init, h, hcap]
    refine ⟨⟨"HIP", by simp [h], by rw [hi]; rfl⟩, ?_, ?_⟩
    · intro s hs'
      rw [hi] at hs'
      exact hh s (by injection hs' with h1; injection h1)
    · intro p hp
      rw [hi] at hp
      cases hp
  · have hi : f.init rt heap = .error (.FatalError
        "SYCL Backend was not compiled. Recompile OGL/Ginkgo with SYCL backend enabled.") := by
      simp [capability_tag, h] at hcap
      simp [ExecutorInitFunctor.init, h, hcap]
    refine ⟨⟨"SYCL", by simp [h], by rw [hi]; rfl⟩, ?_, ?_⟩
    · intro s hs'
      rw [hi] at hs'
      exact hs s (by injection hs' with h1; injection h1)
    · intro p hp
      rw [hi] at hp
      cases hp
  · have hi : f.init rt heap = .error (.FatalError
        "OMP Backend was not compiled. Recompile OGL/Ginkgo with OMP backend enabled.") := by
      simp [capability_tag, h] at hcap
      simp [ExecutorInitFunctor.init, h, hcap]
    refine ⟨⟨"OMP", by simp [h], by rw [hi]; rfl⟩, ?_, ?_⟩
    · intro s hs'
      rw [hi] at hs'
      exact ho s (by injection hs' with h1; injection h1)
    · intro p hp
      rw [hi] at hp
      cases hp

/-- C3 at "dpcpp" on a build without SYCL, with zero SYCL devices and CUDA compiled in. -/
theorem C3_not_compiled_backend_aborts_witness :
    (∃ label, ("dpcpp", label)
        ∈ [("cuda", "CUDA"), ("hip", "HIP"), ("dpcpp", "SYCL"), ("omp", "OMP")] ∧
      ExecutorInitFunctor.init ⟨none, 3, "dpcpp", "p", 0, sample_parallel_run.version⟩
          sample_parallel_run 0
        = .error (.FatalError
          (label ++ " Backend was not compiled. Recompile OGL/Ginkgo with " ++ label ++
            " backend enabled."))) ∧
    (∀ s, ExecutorInitFunctor.init ⟨none, 3, "dpcpp", "p", 0, sample_parallel_run.version⟩
          sample_parallel_run 0
        ≠ .error (.FatalError (ExecutorInitFunctor.unsupported_message s))) ∧
    ∀ p, ExecutorInitFunctor.init ⟨none, 3, "dpcpp", "p", 0, sample_parallel_run.version⟩
          sample_parallel_run 0 ≠ .ok p :=
  C3_not_compiled_backend_aborts ⟨none, 3, "dpcpp", "p", 0, sample_parallel_run.version⟩
    sample_parallel_run 0 (by decide) (by decide)

/-- C4 as stated fails: on a build with CUDA compiled in that runs on a node without a CUDA
device, the functor for "cuda" is constructed, and its init() evaluates a remainder by zero and
returns no executor. -/
theorem C4_counterexample_no_device :
    "cuda" ∈ supported_backends ∧
    capability_tag sample_serial_run.version "cuda" ≠ some ExecutorInitFunctor.not_compiled_tag ∧
    ExecutorInitFunctor.construct sample_serial_run 0 "cuda" "p" 0 1 false
      = .ok (⟨none, 0, "cuda", "p", 0, sample_serial_run.version⟩, 0) ∧
    ExecutorInitFunctor.init ⟨none, 0, "cuda", "p", 0, sample_serial_run.version⟩
        sample_serial_run 0 = .error .DivideByZero ∧
    ∀ p, ExecutorInitFunctor.init ⟨none, 0, "cuda", "p", 0, sample_serial_run.version⟩
        sample_serial_run 0 ≠ .ok p := by
  have h : ExecutorInitFunctor.init ⟨none, 0, "cuda", "p", 0, sample_serial_run.version⟩
      sample_serial_run 0 = .error .DivideByZero := rfl
  refine ⟨by decide, by decide, rfl, h, ?_⟩
  intro p hp
  rw [h] at hp
  cases hp

/-- C4 (amended): for a supported backend name whose capability is compiled in ("reference"
needs none) and, for "cuda", "hip" and "dpcpp", whose runtime device count is not zero, init()
returns a non-null executor of the requested backend; for "cuda", "hip" and "dpcpp" its master is
the host reference executor init() created first, and for "reference" it is that executor. -/
theorem C4_init_returns_requested_backend (f : ExecutorInitFunctor) (rt : Runtime) (heap : Nat)
    (hname : f.executor_name_ ∈ supported_backends)
    (hcap : capability_tag f.version f.executor_name_
      ≠ some ExecutorInitFunctor.not_compiled_tag)
    (hdev : num_devices rt f.executor_name_ ≠ some 0) :
    ∃ e heap1,
      f.init rt heap = .ok (some e, heap1) ∧
      e.backend = f.executor_name_ ∧
      (f.executor_name_ ∈ gpu_backends →
        e.get_master = (gko.ReferenceExecutor.create heap).1) ∧
      (f.executor_name_ = "reference" → e = (gko.ReferenceExecutor.create heap).1) := by
  simp only [supported_backends, List.mem_cons, List.mem_singleton, List.not_mem_nil,
    or_false] at hname
  rcases hname with h | h | h | h | h
  · simp [capability_tag, num_devices, h] at hcap hdev
    refine ⟨_, _, ExecutorInitFunctor.init_cuda f rt heap h hcap hdev, ?_⟩
    simp [h, gko.Executor.backend, gko.Executor.get_master, gko.ReferenceExecutor.create]
  · simp [capability_tag, num_devices, h] at hcap hdev
    refine ⟨_, _, ExecutorInitFunctor.init_hip f rt heap h hcap hdev, ?_⟩
    simp [h, gko.Executor.backend, gko.Executor.get_master, gko.ReferenceExecutor.create]
  · simp [capability_tag, num_devices, h] at hcap hdev
    refine ⟨_, _, ExecutorInitFunctor.init_dpcpp f rt heap h hcap hdev, ?_⟩
    simp [h, gko.Executor.backend, gko.Executor.get_master, gko.ReferenceExecutor.create]
  · simp [capability_tag, h] at hcap
    refine ⟨_, _, ExecutorInitFunctor.init_omp f rt heap h hcap, ?_⟩
    simp [h, gko.Executor.backend, gpu_backends]
  · refine ⟨_, _, ExecutorInitFunctor.init_reference f rt heap h, ?_⟩
    simp [h, gko.Executor.backend, gpu_backends, gko.ReferenceExecutor.create]

/-- C4 (amended) at "hip" on a build with HIP and one HIP device. -/
theorem C4_init_returns_requested_backend_witness :
    ∃ e heap1,
      ExecutorInitFunctor.init ⟨none, 0, "hip", "p", 0, sample_serial_run.version⟩
        sample_serial_run 0 = .ok (some e, heap1) ∧
      e.backend = "hip" ∧
      ("hip" ∈ gpu_backends →
        e.get_master = (gko.ReferenceExecutor.create 0).1) ∧
      ("hip" = "reference" → e = (gko.ReferenceExecutor.create 0).1) :=
  C4_init_returns_requested_backend ⟨none, 0, "hip", "p", 0, sample_serial_run.version⟩
    sample_serial_run 0 (by decide) (by decide) (by decide)

/-- C5: after a handler was constructed for an executor name and a field, constructing it again
from the same configuration against the resulting registry succeeds; every handler constructed
there for the same executor name and field returns the same executor from get_device_exec() and
leaves the registry as it was, so the factory is not run again and over both constructions init()
ran at most once for the key; on a registry satisfying the invariant the shared executor is
non-null. -/
theorem C5_same_key_same_executor (rt : Runtime) (st : State) (c1 c2 : dictionary)
    (field_name : String) (h1 : ExecutorHandler) (st1 : State)
    (hexec : dictionary.lookupOrDefault c1.executor "reference"
      = dictionary.lookupOrDefault c2.executor "reference")
    (hc : ExecutorHandler.construct rt st c1 field_name = .ok (h1, st1)) :
    (∃ h2 st2, ExecutorHandler.construct rt st1 c1 field_name = .ok (h2, st2)) ∧
    (∀ h2 st2, ExecutorHandler.construct rt st1 c2 field_name = .ok (h2, st2) →
      h2.get_device_exec = h1.get_device_exec ∧
      st2.db = st1.db ∧
      st2.db.init_calls.count (ExecutorHandler.cache_key c1 field_name)
        ≤ st.db.init_calls.count (ExecutorHandler.cache_key c1 field_name) + 1) ∧
    (st.wf → ∃ e, h1.get_device_exec = some e) := by
  obtain ⟨f, heap1, base, s2, hf, hb, hh1, hst1⟩ :=
    ExecutorHandler.construct_ok rt st c1 field_name h1 st1 hc
  obtain ⟨hlook, hcalls⟩ := PersistentBase.construct_lookup _ _ f rt base s2 hb
  have hlook1 : st1.db.objects.lookup (ExecutorHandler.cache_key c1 field_name)
      = some base.persistent_object_ := by rw [hst1]; exact hlook
  have hkey : ExecutorHandler.cache_key c2 field_name = ExecutorHandler.cache_key c1 field_name := by
    unfold ExecutorHandler.cache_key
    rw [hexec]
  refine ⟨?_, ?_, ?_⟩
  · obtain ⟨f2, heap3, hf2⟩ := ExecutorInitFunctor.construct_ok_any_heap rt st.heap st1.heap
      _ _ _ _ _ f heap1 hf
    have hb2 := PersistentBase.construct_found
      (ExecutorHandler.cache_key c1 field_name) ⟨heap3, st1.db⟩ f2 rt _ hlook1
    exact ⟨_, _, ExecutorHandler.construct_of_steps rt st1 c1 field_name f2 heap3 _ _ hf2 hb2⟩
  · intro h2 st2 hc2
    obtain ⟨f2, heap3, base2, s3, -, hb2, hh2, hst2⟩ :=
      ExecutorHandler.construct_ok rt st1 c2 field_name h2 st2 hc2
    rw [hkey, PersistentBase.construct_found
      (ExecutorHandler.cache_key c1 field_name) ⟨heap3, st1.db⟩ f2 rt _ hlook1] at hb2
    simp only [Except.ok.injEq, Prod.mk.injEq] at hb2
    obtain ⟨hbase, hs3⟩ := hb2
    have hdb2 : st2.db = st1.db := by rw [hst2, ← hs3]
    refine ⟨?_, hdb2, ?_⟩
    · rw [hh1, hh2, ← hbase]
      rfl
    · have hdb : st1.db = s2.db := by rw [hst1]
      rw [hdb2, hdb]
      rcases hcalls with h | h
      · rw [h]
        exact Nat.le_succ _
      · rw [h, List.count_cons_self]
  · intro hwf
    obtain ⟨hwf1, -, hl, -⟩ :=
      ExecutorHandler.construct_wf rt st c1 field_name h1 st1 hwf hc
    obtain ⟨e, he, -⟩ := hwf1.1 _ (lookup_some_mem _ _ _ hl)
    exact ⟨e, he⟩

/-- C5 on the sample distributed run: the second handler for ("cuda", "p"), configured with
another verbosity, returns the CUDA executor at address 2 built for the first; the registry still
holds one entry and the factory ran once. -/
theorem C5_same_key_same_executor_witness :
    ExecutorHandler.get_device_exec
        ⟨⟨"cuda_p", some (.CudaExecutor 2 1 (.ReferenceExecutor 1))⟩, false, some ⟨5, 7, false⟩,
          "cuda"⟩
      = ExecutorHandler.get_device_exec
        ⟨⟨"cuda_p", some (.CudaExecutor 2 1 (.ReferenceExecutor 1))⟩, false, some ⟨3, 7, false⟩,
          "cuda"⟩ ∧
    State.db ⟨6, ⟨[("cuda_p", some (.CudaExecutor 2 1 (.ReferenceExecutor 1)))], ["cuda_p"]⟩⟩
      = State.db ⟨4, ⟨[("cuda_p", some (.CudaExecutor 2 1 (.ReferenceExecutor 1)))], ["cuda_p"]⟩⟩ ∧
    List.count (ExecutorHandler.cache_key ⟨some "cuda", none, some 2, none⟩ "p")
        (State.db
          ⟨6, ⟨[("cuda_p", some (.CudaExecutor 2 1 (.ReferenceExecutor 1)))], ["cuda_p"]⟩⟩).init_calls
      ≤ List.count (ExecutorHandler.cache_key ⟨some "cuda", none, some 2, none⟩ "p")
        (State.db ⟨0, ⟨[], []⟩⟩).init_calls + 1 :=
  (C5_same_key_same_executor sample_parallel_run ⟨0, ⟨[], []⟩⟩
    ⟨some "cuda", none, some 2, none⟩ ⟨some "cuda", some 3, some 2, none⟩ "p"
    ⟨⟨"cuda_p", some (.CudaExecutor 2 1 (.ReferenceExecutor 1))⟩, false, some ⟨3, 7, false⟩, "cuda"⟩
    ⟨4, ⟨[("cuda_p", some (.CudaExecutor 2 1 (.ReferenceExecutor 1)))], ["cuda_p"]⟩⟩
    rfl rfl).2.1
    ⟨⟨"cuda_p", some (.CudaExecutor 2 1 (.ReferenceExecutor 1))⟩, false, some ⟨5, 7, false⟩, "cuda"⟩
    ⟨6, ⟨[("cuda_p", some (.CudaExecutor 2 1 (.ReferenceExecutor 1)))], ["cuda_p"]⟩⟩
    rfl

/-- C6: the cache key of a handler is the configured executor name, "_", the field name; two
handlers for the same configuration and different field names, built one after the other, have
different cache keys, and on a registry satisfying the invariant they hold non-null executors that
are different objects sharing no master. -/
theorem C6_field_scoped_cache_key (rt : Runtime) (st : State) (solverControls : dictionary)
    (f1 f2 : String) (h1 h2 : ExecutorHandler) (st1 st2 : State)
    (hne : f1 ≠ f2)
    (hc1 : ExecutorHandler.construct rt st solverControls f1 = .ok (h1, st1))
    (hc2 : ExecutorHandler.construct rt st1 solverControls f2 = .ok (h2, st2)) :
    h1.name_ = dictionary.lookupOrDefault solverControls.executor "reference" ++ "_" ++ f1 ∧
    h2.name_ = dictionary.lookupOrDefault solverControls.executor "reference" ++ "_" ++ f2 ∧
    h1.name_ ≠ h2.name_ ∧
    (st.wf → ∃ e1 e2, h1.get_device_exec = some e1 ∧ h2.get_device_exec = some e2 ∧
      e1 ≠ e2 ∧ e1.addr ≠ e2.addr ∧ e1.independent e2) := by
  have hk1 := ExecutorHandler.construct_key rt st solverControls f1 h1 st1 hc1
  have hk2 := ExecutorHandler.construct_key rt st1 solverControls f2 h2 st2 hc2
  have hkne : ExecutorHandler.cache_key solverControls f1
      ≠ ExecutorHandler.cache_key solverControls f2 := by
    intro hk
    have hd := congrArg String.data hk
    simp [ExecutorHandler.cache_key] at hd
    exact hne (String.ext hd)
  refine ⟨hk1, hk2, ?_, ?_⟩
  · rw [hk1, hk2]
    exact hkne
  · intro hwf
    obtain ⟨e1, e2, he1, he2, hind⟩ := ExecutorHandler.independent_of_key_ne rt st solverControls
      solverControls f1 f2 h1 h2 st1 st2 hwf hc1 hc2 hkne
    exact ⟨e1, e2, he1, he2, (e1.independent_ne e2 hind).1, (e1.independent_ne e2 hind).2, hind⟩

/-- C6 on the sample distributed run: handlers for ("cuda", "p") and ("cuda", "U") on an empty
registry get the keys "cuda_p" and "cuda_U" and two CUDA executors with masters of their own. -/
theorem C6_field_scoped_cache_key_witness :
    ("cuda_p" : String) ≠ "cuda_U" ∧
    ∃ e1 e2,
      some (gko.Executor.CudaExecutor 2 1 (.ReferenceExecutor 1)) = some e1 ∧
      some (gko.Executor.CudaExecutor 6 1 (.ReferenceExecutor 5)) = some e2 ∧
      e1 ≠ e2 ∧ e1.addr ≠ e2.addr ∧ e1.independent e2 :=
  ⟨(C6_field_scoped_cache_key sample_parallel_run ⟨0, ⟨[], []⟩⟩
      ⟨some "cuda", none, some 2, none⟩ "p" "U"
      ⟨⟨"cuda_p", some (.CudaExecutor 2 1 (.ReferenceExecutor 1))⟩, false, some ⟨3, 7, false⟩,
        "cuda"⟩
      ⟨⟨"cuda_U", some (.CudaExecutor 6 1 (.ReferenceExecutor 5))⟩, false, some ⟨7, 7, false⟩,
        "cuda"⟩
      ⟨4, ⟨[("cuda_p", some (.CudaExecutor 2 1 (.ReferenceExecutor 1)))], ["cuda_p"]⟩⟩
      ⟨8, ⟨[("cuda_U", some (.CudaExecutor 6 1 (.ReferenceExecutor 5))),
            ("cuda_p", some (.CudaExecutor 2 1 (.ReferenceExecutor 1)))], ["cuda_U", "cuda_p"]⟩⟩
      (by decide) rfl rfl).2.2.1,
   (C6_field_scoped_cache_key sample_parallel_run ⟨0, ⟨[], []⟩⟩
      ⟨some "cuda", none, some 2, none⟩ "p" "U"
      ⟨⟨"cuda_p", some (.CudaExecutor 2 1 (.ReferenceExecutor 1))⟩, false, some ⟨3, 7, false⟩,
        "cuda"⟩
      ⟨⟨"cuda_U", some (.CudaExecutor 6 1 (.ReferenceExecutor 5))⟩, false, some ⟨7, 7, false⟩,
        "cuda"⟩
      ⟨4, ⟨[("cuda_p", some (.CudaExecutor 2 1 (.ReferenceExecutor 1)))], ["cuda_p"]⟩⟩
      ⟨8, ⟨[("cuda_U", some (.CudaExecutor 6 1 (.ReferenceExecutor 5))),
            ("cuda_p", some (.CudaExecutor 2 1 (.ReferenceExecutor 1)))], ["cuda_U", "cuda_p"]⟩⟩
      (by decide) rfl rfl).2.2.2 (State.wf_empty 0)⟩

/-- C7: in a non-distributed run the functor is constructed, for every backend name, field name,
verbosity, gpus_per_rank (zero included: no quotient is evaluated) and force-host-buffer flag,
with device_id_ = 0 and a null communicator; the construction of a handler stops only where the
persistent store stops, and every handler it yields holds and returns a null device communicator. -/
theorem C7_serial_run_null_comm (rt : Runtime) (hpar : rt.parRun = false) :
    (∀ (heap : Nat) (executor_name field_name : String) (verbose gpus_per_rank : Int)
        (force_host_buffer : Bool),
      ExecutorInitFunctor.construct rt heap executor_name field_name verbose gpus_per_rank
          force_host_buffer
        = .ok (⟨none, 0, executor_name, field_name, verbose, rt.version⟩, heap)) ∧
    (∀ (st : State) (solverControls : dictionary) (field_name : String) (e : Abort),
      ExecutorHandler.construct rt st solverControls field_name = .error e →
      PersistentBase.construct (ExecutorHandler.cache_key solverControls field_name) st
        ⟨none, 0, dictionary.lookupOrDefault solverControls.executor "reference", field_name,
          dictionary.lookupOrDefault solverControls.verbose 0, rt.version⟩ rt = .error e) ∧
    (∀ (st : State) (solverControls : dictionary) (field_name : String) (h : ExecutorHandler)
        (st3 : State),
      ExecutorHandler.construct rt st solverControls field_name = .ok (h, st3) →
      h.device_comm_ = none ∧ h.get_gko_mpi_device_comm = none) := by
  have hfun : ∀ (heap : Nat) (executor_name field_name : String) (verbose gpus_per_rank : Int)
      (force_host_buffer : Bool),
      ExecutorInitFunctor.construct rt heap executor_name field_name verbose gpus_per_rank
          force_host_buffer
        = .ok (⟨none, 0, executor_name, field_name, verbose, rt.version⟩, heap) :=
    fun heap en fn v g b => ExecutorInitFunctor.construct_not_parRun rt heap en fn v g b hpar
  refine ⟨hfun, ?_, ?_⟩
  · intro st sc fn e he
    unfold ExecutorHandler.construct ExecutorHandler.init_functor at he
    rw [hfun] at he
    simp only at he
    cases hb : PersistentBase.construct (ExecutorHandler.cache_key sc fn) st
        ⟨none, 0, dictionary.lookupOrDefault sc.executor "reference", fn,
          dictionary.lookupOrDefault sc.verbose 0, rt.version⟩ rt with
    | error e2 =>
      rw [hb] at he
      simpa using he
    | ok r =>
      rw [hb] at he
      cases he
  · intro st sc fn h st3 hc
    obtain ⟨f, heap1, base, st2, -, -, rfl, -⟩ := ExecutorHandler.construct_ok rt st sc fn h st3 hc
    simp [ExecutorHandler.get_gko_mpi_device_comm, init_comm, hpar]

/-- C7 on a serial run: with ranksPerGPU = 0 the functor is built, and the handler for
"reference" exists and has a null device communicator. -/
theorem C7_serial_run_null_comm_witness :
    ExecutorInitFunctor.construct sample_serial_run 0 "reference" "p" 0 0 true
      = .ok (⟨none, 0, "reference", "p", 0, sample_serial_run.version⟩, 0) ∧
    ExecutorHandler.construct sample_serial_run ⟨0, ⟨[], []⟩⟩
        ⟨some "reference", none, some 0, some true⟩ "p"
      = .ok (⟨⟨"reference_p", some (.ReferenceExecutor 0)⟩, true, none, "reference"⟩,
             ⟨1, ⟨[("reference_p", some (.ReferenceExecutor 0))], ["reference_p"]⟩⟩) ∧
    ExecutorHandler.get_gko_mpi_device_comm
      ⟨⟨"reference_p", some (.ReferenceExecutor 0)⟩, true, none, "reference"⟩ = none :=
  ⟨(C7_serial_run_null_comm sample_serial_run rfl).1 0 "reference" "p" 0 0 true, rfl,
   ((C7_serial_run_null_comm sample_serial_run rfl).2.2 ⟨0, ⟨[], []⟩⟩
      ⟨some "reference", none, some 0, some true⟩ "p" _ _ rfl).2⟩

/-- C8: the four settings default to executor = "reference", verbose = 0, ranksPerGPU = 1 and
forceHostBuffer = false when their key is absent; on the empty configuration the handler is built
with cache key "reference_" ++ f, executor name "reference" and force-host-buffer false; a
configured executor string is returned unchanged by get_exec_name(), is the name handed to the
factory and is the prefix of the cache key; and the four settings are read when present: the
factory is the functor constructed from the configured executor, verbose, ranksPerGPU and
forceHostBuffer (its verbose_, device index and communicator flag are the configured ones, and a
configured ranksPerGPU = 0 stops a distributed construction at the quotient), and the handler's
get_gko_force_host_buffer() and device communicator carry the configured forceHostBuffer. -/
theorem C8_settings_defaults (rt : Runtime) (st : State) (field_name : String) :
    (∃ h st3,
      ExecutorHandler.construct rt st ⟨none, none, none, none⟩ field_name = .ok (h, st3) ∧
      h.name_ = "reference_" ++ field_name ∧
      h.get_exec_name = "reference" ∧
      h.get_gko_force_host_buffer = false) ∧
    (∀ v g b, ExecutorHandler.construct rt st ⟨none, v, g, b⟩ field_name
      = ExecutorHandler.construct rt st ⟨some "reference", v, g, b⟩ field_name) ∧
    (∀ s g b, ExecutorHandler.construct rt st ⟨s, none, g, b⟩ field_name
      = ExecutorHandler.construct rt st ⟨s, some 0, g, b⟩ field_name) ∧
    (∀ s v b, ExecutorHandler.construct rt st ⟨s, v, none, b⟩ field_name
      = ExecutorHandler.construct rt st ⟨s, v, some 1, b⟩ field_name) ∧
    (∀ s v g, ExecutorHandler.construct rt st ⟨s, v, g, none⟩ field_name
      = ExecutorHandler.construct rt st ⟨s, v, g, some false⟩ field_name) ∧
    (∀ s v g b,
      ExecutorHandler.cache_key ⟨some s, v, g, b⟩ field_name = s ++ "_" ++ field_name ∧
      (∀ f heap1,
        ExecutorHandler.init_functor rt st.heap ⟨some s, v, g, b⟩ field_name = .ok (f, heap1) →
        f.executor_name_ = s) ∧
      (∀ h st3,
        ExecutorHandler.construct rt st ⟨some s, v, g, b⟩ field_name = .ok (h, st3) →
        h.get_exec_name = s ∧ h.name_ = s ++ "_" ++ field_name)) ∧
    (∀ (s : String) (v g : Int) (b : Bool),
      ExecutorHandler.init_functor rt st.heap ⟨some s, some v, some g, some b⟩ field_name
        = ExecutorInitFunctor.construct rt st.heap s field_name v g b ∧
      (∀ f heap1,
        ExecutorHandler.init_functor rt st.heap ⟨some s, some v, some g, some b⟩ field_name
          = .ok (f, heap1) →
        f.executor_name_ = s ∧ f.field_name_ = field_name ∧ f.verbose_ = v ∧
        f.comm_ = (if rt.parRun then some ⟨st.heap, rt.rank, b⟩ else none) ∧
        f.device_id_ = (if rt.parRun then Int.tdiv (rt.rank : Int) g else 0)) ∧
      (∀ h st3,
        ExecutorHandler.construct rt st ⟨some s, some v, some g, some b⟩ field_name
          = .ok (h, st3) →
        h.get_exec_name = s ∧
        h.get_gko_force_host_buffer = b ∧
        (rt.parRun = true → g ≠ 0) ∧
        (rt.parRun = true →
          ∃ c, h.get_gko_mpi_device_comm = some c ∧ c.force_host_buffer = b) ∧
        (∀ c, h.get_gko_mpi_device_comm = some c → c.force_host_buffer = b))) ∧
    (rt.parRun = true → ∀ s v b,
      ExecutorHandler.construct rt st ⟨s, v, some 0, b⟩ field_name = .error .DivideByZero) := by
  refine ⟨?_, fun _ _ _ => rfl, fun _ _ _ => rfl, fun _ _ _ => rfl, fun _ _ _ => rfl, ?_, ?_, ?_⟩
  · have hf : ∃ f heap1,
        ExecutorHandler.init_functor rt st.heap ⟨none, none, none, none⟩ field_name
          = .ok (f, heap1) ∧ f.executor_name_ = "reference" := by
      cases hpar : rt.parRun with
      | true =>
        exact ⟨_, _, ExecutorInitFunctor.construct_parRun rt st.heap "reference" field_name 0 1
          false hpar (by decide), rfl⟩
      | false =>
        exact ⟨_, _, ExecutorInitFunctor.construct_not_parRun rt st.heap "reference" field_name
          0 1 false hpar, rfl⟩
    obtain ⟨f, heap1, hf, hname⟩ := hf
    obtain ⟨base, st2, hb, hkey⟩ := PersistentBase.construct_reference
      (ExecutorHandler.cache_key ⟨none, none, none, none⟩ field_name) ⟨heap1, st.db⟩ f rt hname
    refine ⟨_, _, ExecutorHandler.construct_of_steps rt st _ field_name f heap1 base st2 hf hb,
      ?_, rfl, rfl⟩
    rw [hkey]
    apply String.ext
    simp [ExecutorHandler.cache_key, dictionary.lookupOrDefault]
  · intro s v g b
    refine ⟨rfl, ?_, ?_⟩
    · intro f heap1 hf
      exact ExecutorInitFunctor.construct_name rt st.heap s field_name _ _ _ f heap1 hf
    · intro h st3 hc
      obtain ⟨f, heap1, base, st2, -, hb, rfl, -⟩ :=
        ExecutorHandler.construct_ok rt st _ field_name h st3 hc
      exact ⟨rfl, (PersistentBase.store_construct_ok _ _ f rt base st2 hb).1⟩
  · intro s v g b
    refine ⟨rfl, ?_, ?_⟩
    · intro f heap1 hf
      obtain ⟨h1, h2, h3, -, h5, h6, -⟩ :=
        ExecutorInitFunctor.construct_members rt st.heap s field_name v g b f heap1 hf
      exact ⟨h1, h2, h3, h5, h6⟩
    · intro h st3 hc
      obtain ⟨f, heap1, base, st2, hf, -, rfl, -⟩ :=
        ExecutorHandler.construct_ok rt st _ field_name h st3 hc
      have hg := (ExecutorInitFunctor.construct_members rt st.heap s field_name v g b f heap1
        hf).2.2.2.2.2.2
      refine ⟨rfl, rfl, hg, ?_, ?_⟩
      · intro hpar
        simp [ExecutorHandler.get_gko_mpi_device_comm, init_comm, make_shared_communicator,
          dictionary.lookupOrDefault, hpar]
      · intro c hcomm
        cases hpar : rt.parRun <;>
          simp [ExecutorHandler.get_gko_mpi_device_comm, init_comm, make_shared_communicator,
            dictionary.lookupOrDefault, hpar] at hcomm
        rw [← hcomm]
  · intro hpar s v b
    unfold ExecutorHandler.construct ExecutorHandler.init_functor
    simp only [dictionary.lookupOrDefault]
    rw [ExecutorInitFunctor.construct_parRun_zero rt st.heap _ _ _ _ hpar]

/-- C9: on the five supported executor names the cache key determines the executor name and the
field name, also when the field names contain "_"; on arbitrary executor strings it does not:
executor "a_b" with field "c" and executor "a" with field "b_c" share the key "a_b_c". -/
theorem C9_cache_key_injective_on_supported :
    (∀ (c1 c2 : dictionary) (f1 f2 : String),
      dictionary.lookupOrDefault c1.executor "reference" ∈ supported_backends →
      dictionary.lookupOrDefault c2.executor "reference" ∈ supported_backends →
      ExecutorHandler.cache_key c1 f1 = ExecutorHandler.cache_key c2 f2 →
      dictionary.lookupOrDefault c1.executor "reference"
        = dictionary.lookupOrDefault c2.executor "reference" ∧ f1 = f2) ∧
    (ExecutorHandler.cache_key ⟨some "a_b", none, none, none⟩ "c"
        = ExecutorHandler.cache_key ⟨some "a", none, none, none⟩ "b_c" ∧
      ("a_b", "c") ≠ ("a", "b_c")) := by
  refine ⟨?_, by decide, by decide⟩
  intro c1 c2 f1 f2 h1 h2 hk
  unfold ExecutorHandler.cache_key at hk
  generalize dictionary.lookupOrDefault c1.executor "reference" = b1 at h1 hk ⊢
  generalize dictionary.lookupOrDefault c2.executor "reference" = b2 at h2 hk ⊢
  have hd := congrArg String.data hk
  simp only [supported_backends, List.mem_cons, List.mem_singleton, List.not_mem_nil,
    or_false] at h1 h2
  rcases h1 with rfl | rfl | rfl | rfl | rfl <;> rcases h2 with rfl | rfl | rfl | rfl | rfl <;>
    simp at hd <;> exact ⟨rfl, String.ext hd⟩

/-- C10: in a distributed run with ranksPerGPU g > 0 and n > 0 devices of a compiled-in GPU
backend, the device of rank r is (r / g) mod n; ranks with the same quotient r / g get the same
device, the assignment repeats with period g * n, and among the first R ≤ g * n ranks no device is
assigned to more than g ranks. -/
theorem C10_rank_blocks_round_robin (rt : Runtime) (name : String) (g n : Nat)
    (hpar : rt.parRun = true) (hg : 0 < g) (hname : name ∈ gpu_backends)
    (hcap : capability_tag rt.version name ≠ some ExecutorInitFunctor.not_compiled_tag)
    (hn : num_devices rt name = some n) (hpos : 0 < n) :
    (∀ r, assigned_device (rt.with_rank r) name (g : Int) = some ((r / g % n : Nat) : Int)) ∧
    (∀ r1 r2, r1 / g = r2 / g →
      assigned_device (rt.with_rank r1) name (g : Int)
        = assigned_device (rt.with_rank r2) name (g : Int)) ∧
    (∀ r, assigned_device (rt.with_rank (r + g * n)) name (g : Int)
        = assigned_device (rt.with_rank r) name (g : Int)) ∧
    (∀ R, R ≤ g * n → ∀ d : Int,
      ((Finset.range R).filter
        (fun r => assigned_device (rt.with_rank r) name (g : Int) = some d)).card ≤ g) := by
  have hdev : ∀ r, assigned_device (rt.with_rank r) name (g : Int)
      = some ((r / g % n : Nat) : Int) := by
    intro r
    have hn2 : num_devices (rt.with_rank r) name = some n := by
      simpa [num_devices, Runtime.with_rank] using hn
    exact assigned_device_eq (rt.with_rank r) name g n hpar hg hname hcap hn2 hpos
  refine ⟨hdev, ?_, ?_, ?_⟩
  · intro r1 r2 h
    rw [hdev, hdev, h]
  · intro r
    rw [hdev, hdev, Nat.add_mul_div_left _ _ hg, Nat.add_mod_right]
  · intro R hR d
    have hsub : (Finset.range R).filter
        (fun r => assigned_device (rt.with_rank r) name (g : Int) = some d)
          ⊆ Finset.Ico (d.toNat * g) (d.toNat * g + g) := by
      intro r hr
      simp only [Finset.mem_filter, Finset.mem_range, hdev, Option.some.injEq] at hr
      obtain ⟨hrR, hrd⟩ := hr
      have hq : r / g < n := (Nat.div_lt_iff_lt_mul hg).mpr (by
        calc r < R := hrR
          _ ≤ g * n := hR
          _ = n * g := Nat.mul_comm _ _)
      rw [Nat.mod_eq_of_lt hq] at hrd
      have hdq : d.toNat = r / g := by rw [← hrd]; exact Int.toNat_ofNat _
      rw [Finset.mem_Ico, hdq]
      exact ⟨Nat.div_mul_le_self r g, Nat.lt_div_mul_add hg⟩
    calc _ ≤ (Finset.Ico (d.toNat * g) (d.toNat * g + g)).card := Finset.card_le_card hsub
      _ = g := by simp

/-- C10 on the sample run: ranksPerGPU 2 on two CUDA devices. -/
theorem C10_rank_blocks_round_robin_witness :
    assigned_device (sample_parallel_run.with_rank 7) "cuda" ((2 : Nat) : Int)
      = some ((7 / 2 % 2 : Nat) : Int) :=
  (C10_rank_blocks_round_robin sample_parallel_run "cuda" 2 2 rfl (by decide) (by decide)
    (by decide) rfl (by decide)).1 7



end Foam
